import Mathlib

/-!
Verification of the SmartTask Pro task tracker (src/App.tsx, src/constants.ts,
src/types.ts).

Timestamps are modelled as natural numbers counting milliseconds since the
epoch; a calendar day is an epoch-millisecond count divided by the number of
milliseconds per day.  Task identifiers are modelled as natural numbers
(the source uses opaque `crypto.randomUUID()` strings whose only relevant
property is equality/freshness).

The helper functions `capitalize`, `determinePriority`, `determineTags`,
`isWithinLast30Days` and `isToday` live in `utils/helpers.ts`, which is not
part of the provided sources; they are modelled from the specification and
marked as such in their doc comments.  Everything else is translated
directly from `src/App.tsx` and `src/constants.ts`.
-/

namespace SmartTask

/-- Priority enum, from src/types.ts (`Priority`). -/
inductive Priority where
  | low
  | medium
  | high
deriving DecidableEq, Repr

/-- Task record, from src/types.ts (`Task`). -/
structure Task where
  id : Nat
  text : String
  completed : Bool
  createdAt : Nat
  priority : Priority
  tags : List String
  timeSpent : Nat
  isTimerRunning : Bool
deriving DecidableEq, Repr

/-- Stats snapshot, from src/types.ts (`TaskStats`). -/
structure TaskStats where
  total : Nat
  pending : Nat
  completed : Nat
deriving DecidableEq, Repr

/-- High-priority keywords, from src/constants.ts (`PRIORITY_KEYWORDS[Priority.HIGH]`). -/
def highKeywords : List String :=
  ["urgent", "asap", "important", "deadline", "exam", "final", "must", "alert", "crisis"]

/-- Medium-priority keywords, from src/constants.ts (`PRIORITY_KEYWORDS[Priority.MEDIUM]`). -/
def mediumKeywords : List String :=
  ["call", "email", "meeting", "review", "buy", "shop", "prepare", "discuss"]

/-- Keyword-to-category mapping, from src/constants.ts (`TAG_MAPPING`). -/
def tagMapping : List (String × String) :=
  [("study", "Education"), ("exam", "Academic"), ("meeting", "Work"),
   ("project", "Work"), ("office", "Work"), ("gym", "Health"),
   ("workout", "Health"), ("run", "Health"), ("buy", "Shopping"),
   ("grocery", "Errands"), ("shop", "Shopping"), ("dinner", "Personal"),
   ("family", "Personal")]

/-- Milliseconds in one day. -/
def msPerDay : Nat := 86400000

/-- Calendar day of an epoch-millisecond timestamp. -/
def dayOf (t : Nat) : Nat := t / msPerDay

/-- Modelled from the spec: `isToday` of utils/helpers.ts (missing from src/);
"creation date is today (same calendar day as now)". -/
def isToday (createdAt now : Nat) : Bool := dayOf createdAt == dayOf now

/-- Modelled from the spec: `isWithinLast30Days` of utils/helpers.ts (missing
from src/); "keep only records whose creation timestamp is within the last
30 days (inclusive boundary semantics: a record created exactly 30 days ago
at the same time-of-day is retained; strictly older is dropped)". -/
def isWithinLast30Days (createdAt now : Nat) : Bool :=
  now ≤ createdAt + 30 * msPerDay

/-- Strip leading and trailing whitespace from a character list. -/
def trimChars (l : List Char) : List Char :=
  ((l.dropWhile Char.isWhitespace).reverse.dropWhile Char.isWhitespace).reverse

/-- Model of the JavaScript `String.prototype.trim` used throughout
src/App.tsx: strips leading and trailing whitespace. -/
def jsTrim (s : String) : String := String.mk (trimChars s.data)

/-- Model of the JavaScript `String.prototype.toLowerCase`: lower-cases every
character. -/
def jsToLower (s : String) : String := String.mk (s.data.map Char.toLower)

/-- Split a character list at every non-alphanumeric character, keeping the
(possibly empty) segments in between. -/
def splitNonAlnum : List Char → List (List Char)
  | [] => [[]]
  | c :: rest =>
    let r := splitNonAlnum rest
    if c.isAlphanum then
      match r with
      | [] => [[c]]
      | w :: ws => (c :: w) :: ws
    else [] :: r

/-- Modelled from the spec: `capitalize` of utils/helpers.ts (missing from
src/); "normalizes capitalization (first letter upper-cased, rest
unchanged)". -/
def capitalize (s : String) : String :=
  match s.data with
  | [] => s
  | c :: rest => String.mk (c.toUpper :: rest)

/-- Modelled from the spec: the tokenization step of the classifier in
utils/helpers.ts (missing from src/); "Tokenizes text case-insensitively
into words", where "tokenization must strip non-alphanumeric boundary
characters". Splits on non-alphanumeric characters and drops empty pieces. -/
def tokenize (text : String) : List String :=
  ((splitNonAlnum (jsToLower text).data).filter (fun w => w ≠ [])).map String.mk

/-- Modelled from the spec: `determinePriority` of utils/helpers.ts (missing
from src/); "scan a fixed ordered table of keyword sets ... from highest to
lowest severity (High, then Medium; Low is the default with no keywords).
The first level whose keyword set intersects the token set wins; if none
match, priority is Low."  The keyword tables themselves come from
src/constants.ts. -/
def determinePriority (text : String) : Priority :=
  let toks := tokenize text
  if toks.any (fun w => highKeywords.contains w) then Priority.high
  else if toks.any (fun w => mediumKeywords.contains w) then Priority.medium
  else Priority.low

/-- Modelled from the spec: `determineTags` of utils/helpers.ts (missing from
src/); "for each token, look up a fixed keyword→category mapping ...; the
resulting tag set is the set of unique categories across all matching
tokens, insertion order irrelevant, duplicates collapsed."  The mapping
itself comes from src/constants.ts. -/
def determineTags (text : String) : List String :=
  ((tokenize text).filterMap (fun w => tagMapping.lookup w)).eraseDups

/-- `addTask` from src/App.tsx (lines 105-129): trims the input; on empty
trim sets an error message and leaves the collection unchanged; otherwise
prepends a freshly classified task.  The fresh id and the current time are
passed explicitly.  Returns the new collection and the error message, if
any. -/
def addTask (input : String) (freshId : Nat) (now : Nat) (ts : List Task) :
    List Task × Option String :=
  let trimmedText := jsTrim input
  if trimmedText = "" then
    (ts, some "Please enter a valid task description.")
  else
    ({ id := freshId
       text := capitalize trimmedText
       completed := false
       createdAt := now
       priority := determinePriority trimmedText
       tags := determineTags trimmedText
       timeSpent := 0
       isTimerRunning := false } :: ts, none)

/-- The per-element update of `toggleTask` from src/App.tsx (lines 136-142).
In the source the object spread evaluates `!t.completed` against the
original record, so the timer is forced off exactly when the task is being
completed. -/
def toggleTaskOne (id : Nat) (t : Task) : Task :=
  if t.id == id then
    { t with completed := !t.completed
             isTimerRunning := if !t.completed then false else t.isTimerRunning }
  else t

/-- `toggleTask` from src/App.tsx (lines 136-142). -/
def toggleTask (id : Nat) (ts : List Task) : List Task :=
  ts.map (toggleTaskOne id)

/-- The per-element update of `toggleTimer` from src/App.tsx (lines 144-150):
flips `isTimerRunning` unconditionally. -/
def toggleTimerOne (id : Nat) (t : Task) : Task :=
  if t.id == id then { t with isTimerRunning := !t.isTimerRunning } else t

/-- `toggleTimer` from src/App.tsx (lines 144-150). -/
def toggleTimer (id : Nat) (ts : List Task) : List Task :=
  ts.map (toggleTimerOne id)

/-- `deleteTask` from src/App.tsx (lines 152-154). -/
def deleteTask (id : Nat) (ts : List Task) : List Task :=
  ts.filter (fun t => !(t.id == id))

/-- The per-element update of `editTask` from src/App.tsx (line 158). -/
def editTaskOne (id : Nat) (newText : String) (t : Task) : Task :=
  if t.id == id then { t with text := capitalize (jsTrim newText) } else t

/-- `editTask` from src/App.tsx (lines 156-159): no-op when the trimmed new
text is empty, otherwise rewrites the text of the task with the given id. -/
def editTask (id : Nat) (newText : String) (ts : List Task) : List Task :=
  if jsTrim newText = "" then ts
  else ts.map (editTaskOne id newText)

/-- `clearCompleted` from src/App.tsx (lines 161-163). -/
def clearCompleted (ts : List Task) : List Task :=
  ts.filter (fun t => !t.completed)

/-- The per-element update of one timer tick, from the interval callback in
src/App.tsx (lines 96-100). -/
def tickOne (t : Task) : Task :=
  if t.isTimerRunning then { t with timeSpent := t.timeSpent + 1 } else t

/-- One timer tick, from the interval callback in src/App.tsx (lines 96-100):
every running task gains one second of `timeSpent`. -/
def tick (ts : List Task) : List Task :=
  ts.map tickOne

/-- `monthlyStats` from src/App.tsx (lines 174-178). -/
def monthlyStats (ts : List Task) : TaskStats :=
  { total := ts.length
    pending := (ts.filter (fun t => !t.completed)).length
    completed := (ts.filter (fun t => t.completed)).length }

/-- `dailyStats` from src/App.tsx (lines 181-190). -/
def dailyStats (now : Nat) (ts : List Task) : TaskStats :=
  let pendingCount := (ts.filter (fun t => !t.completed)).length
  let completedTodayCount :=
    (ts.filter (fun t => t.completed && isToday t.createdAt now)).length
  { total := pendingCount + completedTodayCount
    pending := pendingCount
    completed := completedTodayCount }

/-- A persisted task record as read back from storage, before the cleaning
step of the load effect in src/App.tsx (lines 36-43): `timeSpent` may be
missing and `isTimerRunning` may be missing (JavaScript `undefined`),
modelled with `Option`. -/
structure RawTask where
  id : Nat
  text : String
  completed : Bool
  createdAt : Nat
  priority : Priority
  tags : List String
  timeSpent : Option Nat
  isTimerRunning : Option Bool
deriving DecidableEq, Repr

/-- The cleaning map of the load effect in src/App.tsx (lines 38-42):
`timeSpent: t.timeSpent || 0` and `isTimerRunning: !!t.isTimerRunning`. -/
def cleanTask (r : RawTask) : Task :=
  { id := r.id
    text := r.text
    completed := r.completed
    createdAt := r.createdAt
    priority := r.priority
    tags := r.tags
    timeSpent := r.timeSpent.getD 0
    isTimerRunning := r.isTimerRunning.getD false }

/-- The retention step of the load effect in src/App.tsx (line 37): keep the
persisted records whose creation timestamp passes `isWithinLast30Days`. -/
def retainedRecords (parsed : List RawTask) (now : Nat) : List RawTask :=
  parsed.filter (fun r => isWithinLast30Days r.createdAt now)

/-- The load effect in src/App.tsx (lines 31-47): retention-filter the
persisted records, then normalize each survivor. -/
def loadTasks (parsed : List RawTask) (now : Nat) : List Task :=
  (retainedRecords parsed now).map cleanTask

/-- A lifecycle operation or timer tick, abstracting the mutation surface of
src/App.tsx.  `create` carries the raw input text together with the fresh
id and the current time that the source obtains from `crypto.randomUUID()`
and `new Date()`. -/
inductive Op where
  | create (input : String) (freshId : Nat) (now : Nat)
  | toggleComplete (id : Nat)
  | toggleTimer (id : Nat)
  | edit (id : Nat) (newText : String)
  | delete (id : Nat)
  | clearCompleted
  | tick
deriving DecidableEq, Repr

/-- Apply one operation to the collection. -/
def applyOp (o : Op) (ts : List Task) : List Task :=
  match o with
  | Op.create input freshId now => (addTask input freshId now ts).1
  | Op.toggleComplete id => toggleTask id ts
  | Op.toggleTimer id => toggleTimer id ts
  | Op.edit id newText => editTask id newText ts
  | Op.delete id => deleteTask id ts
  | Op.clearCompleted => clearCompleted ts
  | Op.tick => tick ts

/-- Apply a sequence of operations, left to right. -/
def applySeq (ops : List Op) (ts : List Task) : List Task :=
  ops.foldl (fun acc o => applyOp o acc) ts

/-- The per-task invariant of the spec: a running timer implies the task is
not completed. -/
def invTask (t : Task) : Bool :=
  !t.isTimerRunning || !t.completed

/-- The invariant of the spec over the whole collection: no task has
`isTimerRunning = true` and `completed = true` simultaneously. -/
def invHolds (ts : List Task) : Bool :=
  ts.all invTask

/-- An operation is timer-safe in a state when it is not a `toggleTimer`
aimed at a completed task. -/
def timerSafe (o : Op) (ts : List Task) : Bool :=
  match o with
  | Op.toggleTimer id => ts.all (fun t => !(t.id == id) || !t.completed)
  | _ => true

/-- A sequence of operations is timer-safe from a state when every
`toggleTimer` in it targets a task that is not completed at the moment the
operation runs. -/
def safeSeq : List Op → List Task → Bool
  | [], _ => true
  | o :: ops, ts => timerSafe o ts && safeSeq ops (applyOp o ts)

/-- The identifiers of the tasks in the collection, in order. -/
def taskIds (ts : List Task) : List Nat :=
  ts.map (fun t => t.id)

/-- The fresh identifier consumed by an operation (only `create` consumes
one). -/
def opCreateIds : Op → List Nat
  | Op.create _ freshId _ => [freshId]
  | _ => []

/-- All fresh identifiers consumed by a sequence of operations. -/
def seqCreateIds (ops : List Op) : List Nat :=
  (ops.map opCreateIds).flatten

/-- Well-formedness of a run: the identifiers already in the collection
together with all fresh identifiers the run will consume are pairwise
distinct.  This models `crypto.randomUUID()` never repeating an id. -/
def wfOps (ops : List Op) (ts : List Task) : Prop :=
  (taskIds ts ++ seqCreateIds ops).Nodup

/-- Look up the task with the given id (first match, as the source's
per-id updates address tasks). -/
def findTask (id : Nat) (ts : List Task) : Option Task :=
  ts.find? (fun t => t.id == id)

/-- A sample task used in concrete instantiations. -/
def sampleTask (id : Nat) (completed running : Bool) (createdAt timeSpent : Nat) :
    Task :=
  { id := id
    text := "Task"
    completed := completed
    createdAt := createdAt
    priority := Priority.low
    tags := []
    timeSpent := timeSpent
    isTimerRunning := running }

/-- A sample raw persisted record used in concrete instantiations. -/
def sampleRaw (id : Nat) (createdAt : Nat) (timeSpent : Option Nat)
    (isTimerRunning : Option Bool) : RawTask :=
  { id := id
    text := "Task"
    completed := false
    createdAt := createdAt
    priority := Priority.low
    tags := []
    timeSpent := timeSpent
    isTimerRunning := isTimerRunning }

theorem toNat_ofNat_valid {n : Nat} (h : n < 55296) : (Char.ofNat n).toNat = n := by
  have hv : n.isValidChar := Or.inl h
  rw [Char.ofNat, dif_pos hv]
  rfl

theorem ofNat_toNat_self (c : Char) : Char.ofNat c.toNat = c := by
  have hv : c.toNat.isValidChar := c.valid
  rw [Char.ofNat, dif_pos hv]
  apply Char.ext
  rfl

theorem toLower_idem (c : Char) : c.toLower.toLower = c.toLower := by
  show Char.toLower (Char.toLower c) = Char.toLower c
  by_cases h : c.toNat ≥ 65 ∧ c.toNat ≤ 90
  · have e1 : Char.toLower c = Char.ofNat (c.toNat + 32) := by
      rw [Char.toLower, if_pos h]
    have h32 : (Char.ofNat (c.toNat + 32)).toNat = c.toNat + 32 :=
      toNat_ofNat_valid (by omega)
    rw [e1, Char.toLower, if_neg (by rw [h32]; omega)]
  · have e1 : Char.toLower c = c := by rw [Char.toLower, if_neg h]
    rw [e1, e1]

theorem jsToLower_idem (s : String) : jsToLower (jsToLower s) = jsToLower s := by
  unfold jsToLower
  congr 1
  rw [show ({ data := List.map Char.toLower s.data } : String).data
        = List.map Char.toLower s.data from rfl, List.map_map]
  exact List.map_congr_left (fun c _ => toLower_idem c)

theorem c4Hyp : jsTrim "   " = "" := by decide

/-- C4: for every input that is empty after trimming, `addTask` reports the
validation error message and returns the collection unchanged (no record
added, no record modified). -/
theorem c4_empty_create_no_mutation (input : String) (freshId now : Nat)
    (ts : List Task) (h : jsTrim input = "") :
    addTask input freshId now ts =
      (ts, some "Please enter a valid task description.") := by
  unfold addTask
  rw [if_pos h]

/-- Witness for C4 at the concrete blank input "   " and a nonempty
collection. -/
theorem c4_empty_create_no_mutation_witness :
    jsTrim "   " = "" ∧
    addTask "   " 5 7 [sampleTask 1 false false 0 0] =
      ([sampleTask 1 false false 0 0],
        some "Please enter a valid task description.") :=
  ⟨c4Hyp, c4_empty_create_no_mutation "   " 5 7 [sampleTask 1 false false 0 0] c4Hyp⟩

/-- C2 counterexample: creating a task from the input "Buy groceries" yields
priority Medium, not Low ("buy" is a Medium-priority keyword in
src/constants.ts), refuting the claimed (Low, {"Shopping", "Errands"})
outcome. -/
theorem c2_counterexample :
    (addTask "Buy groceries" 42 1000 []).1.map (fun t => (t.priority, t.tags)) =
      [(Priority.medium, ["Shopping"])] ∧
    Priority.medium ≠ Priority.low := by
  constructor
  · decide
  · decide

/-- C2 (amended): creating a task from the input "Buy groceries" yields a
record with priority Medium ("buy" is a Medium-priority keyword) and tag
set exactly {"Shopping"} (the token "groceries" does not match the mapping
key "grocery"). -/
theorem c2_buy_groceries_amended (freshId now : Nat) (ts : List Task) :
    (addTask "Buy groceries" freshId now ts).1 =
      { id := freshId
        text := "Buy groceries"
        completed := false
        createdAt := now
        priority := Priority.medium
        tags := ["Shopping"]
        timeSpent := 0
        isTimerRunning := false } :: ts := by
  unfold addTask
  rw [if_neg (by decide)]
  rw [show capitalize (jsTrim "Buy groceries") = "Buy groceries" by decide]
  rw [show determinePriority (jsTrim "Buy groceries") = Priority.medium by decide]
  rw [show determineTags (jsTrim "Buy groceries") = ["Shopping"] by decide]

theorem any_contains_iff (toks keys : List String) :
    (toks.any (fun w => keys.contains w) = true) ↔ ∃ w ∈ toks, w ∈ keys := by
  rw [List.any_eq_true]
  constructor
  · rintro ⟨w, hw, hc⟩
    exact ⟨w, hw, List.mem_of_elem_eq_true hc⟩
  · rintro ⟨w, hw, hc⟩
    exact ⟨w, hw, List.elem_eq_true_of_mem hc⟩

theorem tokenize_jsToLower (text : String) :
    tokenize (jsToLower text) = tokenize text := by
  unfold tokenize
  rw [jsToLower_idem]

theorem determinePriority_rule (text : String) :
    ((∃ w ∈ tokenize text, w ∈ highKeywords) → determinePriority text = Priority.high) ∧
    ((¬∃ w ∈ tokenize text, w ∈ highKeywords) →
      (∃ w ∈ tokenize text, w ∈ mediumKeywords) →
        determinePriority text = Priority.medium) ∧
    ((¬∃ w ∈ tokenize text, w ∈ highKeywords) →
      (¬∃ w ∈ tokenize text, w ∈ mediumKeywords) →
        determinePriority text = Priority.low) := by
  refine ⟨fun hh => ?_, fun hnh hm => ?_, fun hnh hnm => ?_⟩
  · unfold determinePriority
    rw [if_pos ((any_contains_iff _ _).mpr hh)]
  · unfold determinePriority
    rw [if_neg (fun hc => hnh ((any_contains_iff _ _).mp hc)),
        if_pos ((any_contains_iff _ _).mpr hm)]
  · unfold determinePriority
    rw [if_neg (fun hc => hnh ((any_contains_iff _ _).mp hc)),
        if_neg (fun hc => hnm ((any_contains_iff _ _).mp hc))]

/-- C3: for every input with non-empty trim, the created record's priority
is High when the token set of the trimmed text intersects the High keyword
set, else Medium when it intersects the Medium keyword set, else Low; the
match is case-insensitive (lower-casing the text does not change the
outcome) and existence-based (stated through plain intersection, so
keyword multiplicity is irrelevant). -/
theorem c3_create_priority_rule (input : String) (freshId now : Nat)
    (ts : List Task) (h : jsTrim input ≠ "") :
    ∃ newTask : Task,
      (addTask input freshId now ts).1 = newTask :: ts ∧
      ((∃ w ∈ tokenize (jsTrim input), w ∈ highKeywords) →
        newTask.priority = Priority.high) ∧
      ((¬∃ w ∈ tokenize (jsTrim input), w ∈ highKeywords) →
        (∃ w ∈ tokenize (jsTrim input), w ∈ mediumKeywords) →
          newTask.priority = Priority.medium) ∧
      ((¬∃ w ∈ tokenize (jsTrim input), w ∈ highKeywords) →
        (¬∃ w ∈ tokenize (jsTrim input), w ∈ mediumKeywords) →
          newTask.priority = Priority.low) ∧
      determinePriority (jsToLower (jsTrim input)) = newTask.priority := by
  have he : (addTask input freshId now ts).1 =
      { id := freshId
        text := capitalize (jsTrim input)
        completed := false
        createdAt := now
        priority := determinePriority (jsTrim input)
        tags := determineTags (jsTrim input)
        timeSpent := 0
        isTimerRunning := false } :: ts := by
    unfold addTask
    rw [if_neg h]
  refine ⟨_, he, ?_, ?_, ?_, ?_⟩
  · intro hh
    exact (determinePriority_rule (jsTrim input)).1 hh
  · intro hnh hm
    exact (determinePriority_rule (jsTrim input)).2.1 hnh hm
  · intro hnh hnm
    exact (determinePriority_rule (jsTrim input)).2.2 hnh hnm
  · show determinePriority (jsToLower (jsTrim input)) = determinePriority (jsTrim input)
    unfold determinePriority
    rw [tokenize_jsToLower]

/-- Witness for C3 at the concrete input "URGENT exam tomorrow": the created
record has priority High. -/
theorem c3_create_priority_rule_witness :
    jsTrim "URGENT exam tomorrow" ≠ "" ∧
    ∃ newTask : Task,
      (addTask "URGENT exam tomorrow" 7 99 []).1 = [newTask] ∧
      newTask.priority = Priority.high := by
  refine ⟨by decide, ?_⟩
  obtain ⟨newTask, he, hh, -, -, -⟩ :=
    c3_create_priority_rule "URGENT exam tomorrow" 7 99 [] (by decide)
  exact ⟨newTask, he, hh (by decide)⟩

theorem toggleTaskOne_twice (id : Nat) (t : Task) :
    (toggleTaskOne id (toggleTaskOne id t)).completed = t.completed ∧
    (t.id = id →
      (t.isTimerRunning = false →
        (toggleTaskOne id (toggleTaskOne id t)).isTimerRunning = t.isTimerRunning) ∧
      (t.isTimerRunning = true →
        (toggleTaskOne id (toggleTaskOne id t)).isTimerRunning = false)) ∧
    (t.id ≠ id → toggleTaskOne id (toggleTaskOne id t) = t) := by
  obtain ⟨i, tx, c, ca, p, tg, sp, r⟩ := t
  by_cases hid : i = id
  · cases c <;> cases r <;> simp [toggleTaskOne, hid]
  · simp [toggleTaskOne, hid]

/-- C8: applying `toggleTask` (toggle-complete) twice with the same id
returns every task to its original `completed` state; the targeted task
returns to its original `isTimerRunning` state when that was false, and
ends with `isTimerRunning = false` when it was originally true; tasks with
a different id are untouched. -/
theorem c8_toggleComplete_twice (ts : List Task) (id : Nat) (i : Nat)
    (h : i < ts.length) :
    ∃ h2 : i < (toggleTask id (toggleTask id ts)).length,
      ((toggleTask id (toggleTask id ts)).get ⟨i, h2⟩).completed
          = (ts.get ⟨i, h⟩).completed ∧
      ((ts.get ⟨i, h⟩).id = id →
        ((ts.get ⟨i, h⟩).isTimerRunning = false →
          ((toggleTask id (toggleTask id ts)).get ⟨i, h2⟩).isTimerRunning
            = (ts.get ⟨i, h⟩).isTimerRunning) ∧
        ((ts.get ⟨i, h⟩).isTimerRunning = true →
          ((toggleTask id (toggleTask id ts)).get ⟨i, h2⟩).isTimerRunning = false)) ∧
      ((ts.get ⟨i, h⟩).id ≠ id →
        (toggleTask id (toggleTask id ts)).get ⟨i, h2⟩ = ts.get ⟨i, h⟩) := by
  have h2 : i < (toggleTask id (toggleTask id ts)).length := by
    simpa [toggleTask] using h
  refine ⟨h2, ?_⟩
  have hget : (toggleTask id (toggleTask id ts)).get ⟨i, h2⟩
      = toggleTaskOne id (toggleTaskOne id (ts.get ⟨i, h⟩)) := by
    simp [toggleTask, List.get_eq_getElem, List.getElem_map]
  rw [hget]
  exact toggleTaskOne_twice id (ts.get ⟨i, h⟩)

/-- Witness for C8 at a concrete one-task collection with a running timer. -/
theorem c8_toggleComplete_twice_witness :
    (0 : Nat) < [sampleTask 3 false true 0 0].length ∧
    ∃ h2 : 0 < (toggleTask 3 (toggleTask 3 [sampleTask 3 false true 0 0])).length,
      ((toggleTask 3 (toggleTask 3 [sampleTask 3 false true 0 0])).get
          ⟨0, h2⟩).completed = false ∧
      ((toggleTask 3 (toggleTask 3 [sampleTask 3 false true 0 0])).get
          ⟨0, h2⟩).isTimerRunning = false := by
  refine ⟨by decide, ?_⟩
  obtain ⟨h2, hc, hid, -⟩ :=
    c8_toggleComplete_twice [sampleTask 3 false true 0 0] 3 0 (by decide)
  exact ⟨h2, by rw [hc]; decide, (hid (by decide)).2 (by decide)⟩

theorem editTask_length (id : Nat) (newText : String) (ts : List Task) :
    (editTask id newText ts).length = ts.length := by
  unfold editTask
  split
  · rfl
  · exact List.length_map ts (editTaskOne id newText)

/-- C9: `editTask` is a no-op when the trimmed new text is empty or when no
task has the given id; otherwise it replaces exactly the display text of
the task with that id by the capitalization-normalized trimmed value and
preserves every other field of every task (id, createdAt, completed,
priority, tags, timeSpent, isTimerRunning). -/
theorem c9_edit_frame (ts : List Task) (id : Nat) (newText : String) :
    (jsTrim newText = "" → editTask id newText ts = ts) ∧
    ((∀ t ∈ ts, t.id ≠ id) → editTask id newText ts = ts) ∧
    (jsTrim newText ≠ "" → ∀ i : Nat, ∀ t0 : Task, ts[i]? = some t0 →
        (t0.id ≠ id → (editTask id newText ts)[i]? = some t0) ∧
        (t0.id = id → (editTask id newText ts)[i]?
            = some { t0 with text := capitalize (jsTrim newText) })) := by
  refine ⟨fun he => ?_, fun hno => ?_, fun hb i t0 hi => ?_⟩
  · unfold editTask
    rw [if_pos he]
  · unfold editTask
    split
    · rfl
    · have : ∀ t ∈ ts, editTaskOne id newText t = t := by
        intro t ht
        unfold editTaskOne
        rw [if_neg (by simpa using hno t ht)]
      calc ts.map (editTaskOne id newText) = ts.map (fun t => t) :=
            List.map_congr_left this
        _ = ts := List.map_id ts
  · have he : editTask id newText ts = ts.map (editTaskOne id newText) := by
      unfold editTask
      rw [if_neg hb]
    rw [he, List.getElem?_map, hi]
    constructor
    · intro hne
      show some (editTaskOne id newText t0) = some t0
      unfold editTaskOne
      rw [if_neg (by simpa using hne)]
    · intro hid
      show some (editTaskOne id newText t0)
        = some { t0 with text := capitalize (jsTrim newText) }
      unfold editTaskOne
      rw [if_pos (by simpa using hid)]

/-- Witness for C9 at a concrete edit of a one-task collection. -/
theorem c9_edit_frame_witness :
    jsTrim "  new text " ≠ "" ∧
    (editTask 1 "  new text " [sampleTask 1 false false 4 9])[0]?
      = some { sampleTask 1 false false 4 9 with
                 text := capitalize (jsTrim "  new text ") } := by
  refine ⟨by decide, ?_⟩
  obtain ⟨-, hmatch⟩ :=
    (c9_edit_frame [sampleTask 1 false false 4 9] 1 "  new text ").2.2
      (by decide) 0 (sampleTask 1 false false 4 9) (by decide)
  exact hmatch (by decide)

theorem invTask_toggleTaskOne (id : Nat) (t : Task) (h : invTask t = true) :
    invTask (toggleTaskOne id t) = true := by
  obtain ⟨i, tx, c, ca, p, tg, sp, r⟩ := t
  by_cases hid : i = id
  · cases c <;> cases r <;> simp [invTask, toggleTaskOne, hid]
  · simpa [toggleTaskOne, hid] using h

theorem invTask_toggleTimerOne (id : Nat) (t : Task) (h : invTask t = true)
    (hsafe : (!(t.id == id) || !t.completed) = true) :
    invTask (toggleTimerOne id t) = true := by
  obtain ⟨i, tx, c, ca, p, tg, sp, r⟩ := t
  by_cases hid : i = id
  · cases c
    · simp [invTask, toggleTimerOne, hid]
    · simp [hid] at hsafe
  · simpa [toggleTimerOne, hid] using h

theorem invTask_editTaskOne (id : Nat) (newText : String) (t : Task)
    (h : invTask t = true) : invTask (editTaskOne id newText t) = true := by
  obtain ⟨i, tx, c, ca, p, tg, sp, r⟩ := t
  by_cases hid : i = id
  · simpa [invTask, editTaskOne, hid] using h
  · simpa [editTaskOne, hid] using h

theorem invTask_tickOne (t : Task) (h : invTask t = true) :
    invTask (tickOne t) = true := by
  obtain ⟨i, tx, c, ca, p, tg, sp, r⟩ := t
  cases r <;> simp_all [invTask, tickOne]

theorem invHolds_filter (q : Task → Bool) (ts : List Task)
    (h : invHolds ts = true) : invHolds (ts.filter q) = true := by
  rw [invHolds, List.all_eq_true] at h ⊢
  intro t ht
  exact h t (List.mem_filter.mp ht).1

theorem invHolds_map (f : Task → Task) (ts : List Task)
    (h : invHolds ts = true)
    (hf : ∀ t ∈ ts, invTask t = true → invTask (f t) = true) :
    invHolds (ts.map f) = true := by
  rw [invHolds, List.all_eq_true] at h ⊢
  intro t ht
  obtain ⟨s, hs, rfl⟩ := List.mem_map.mp ht
  exact hf s hs (h s hs)

theorem invHolds_applyOp (o : Op) (ts : List Task) (hinv : invHolds ts = true)
    (hsafe : timerSafe o ts = true) : invHolds (applyOp o ts) = true := by
  cases o with
  | create input freshId now =>
    show invHolds (addTask input freshId now ts).1 = true
    simp only [addTask]
    by_cases hb : jsTrim input = ""
    · rw [if_pos hb]
      exact hinv
    · rw [if_neg hb]
      rw [invHolds, List.all_eq_true]
      intro t ht
      rcases List.mem_cons.mp ht with rfl | ht
      · rfl
      · exact (List.all_eq_true.mp hinv) t ht
  | toggleComplete id =>
    exact invHolds_map _ ts hinv (fun t _ h => invTask_toggleTaskOne id t h)
  | toggleTimer id =>
    refine invHolds_map _ ts hinv (fun t ht h => invTask_toggleTimerOne id t h ?_)
    exact (List.all_eq_true.mp hsafe) t ht
  | edit id newText =>
    show invHolds (editTask id newText ts) = true
    unfold editTask
    split
    · exact hinv
    · exact invHolds_map _ ts hinv (fun t _ h => invTask_editTaskOne id newText t h)
  | delete id =>
    exact invHolds_filter _ ts hinv
  | clearCompleted =>
    exact invHolds_filter _ ts hinv
  | tick =>
    exact invHolds_map _ ts hinv (fun t _ h => invTask_tickOne t h)

theorem invHolds_applySeq (ops : List Op) : ∀ ts : List Task,
    invHolds ts = true → safeSeq ops ts = true →
    invHolds (applySeq ops ts) = true := by
  induction ops with
  | nil => exact fun ts h _ => h
  | cons o ops ih =>
    intro ts h hs
    rw [safeSeq, Bool.and_eq_true] at hs
    exact ih (applyOp o ts) (invHolds_applyOp o ts h hs.1) hs.2

/-- C1 counterexample: from a state satisfying the invariant (a single
completed task whose timer is off), one `toggleTimer` on that completed
task produces a task with `isTimerRunning = true` and `completed = true`
simultaneously, refuting the claim for unrestricted operation sequences. -/
theorem c1_counterexample :
    invHolds [sampleTask 1 true false 0 0] = true ∧
    ∃ t ∈ applySeq [Op.toggleTimer 1] [sampleTask 1 true false 0 0],
      t.isTimerRunning = true ∧ t.completed = true := by
  constructor
  · decide
  · decide

/-- C1 (amended): after any sequence of lifecycle operations and timer ticks
starting from a state where no task has both flags set, provided every
`toggleTimer` in the sequence targets a task that is not completed at the
moment of the call, no task ever has `isTimerRunning = true` and
`completed = true` simultaneously. -/
theorem c1_invariant_amended (ops : List Op) (ts : List Task)
    (hinv : invHolds ts = true) (hsafe : safeSeq ops ts = true) :
    invHolds (applySeq ops ts) = true :=
  invHolds_applySeq ops ts hinv hsafe

/-- Witness for C1 (amended): a pending running task is completed (timer
forced off), deleted tasks and ticks included, and the invariant holds
throughout. -/
theorem c1_invariant_amended_witness :
    invHolds [sampleTask 1 false true 0 0] = true ∧
    safeSeq [Op.toggleTimer 1, Op.toggleTimer 1, Op.tick, Op.toggleComplete 1]
      [sampleTask 1 false true 0 0] = true ∧
    invHolds (applySeq
      [Op.toggleTimer 1, Op.toggleTimer 1, Op.tick, Op.toggleComplete 1]
      [sampleTask 1 false true 0 0]) = true :=
  ⟨by decide, by decide,
    c1_invariant_amended
      [Op.toggleTimer 1, Op.toggleTimer 1, Op.tick, Op.toggleComplete 1]
      [sampleTask 1 false true 0 0] (by decide) (by decide)⟩

theorem countP_lt_of_strict {α : Type} (p q : α → Bool) (l : List α)
    (hpq : ∀ x ∈ l, p x = true → q x = true) (x : α) (hx : x ∈ l)
    (hqx : q x = true) (hpx : p x = false) :
    l.countP p < l.countP q := by
  induction l with
  | nil => cases hx
  | cons a l ih =>
    rw [List.countP_cons, List.countP_cons]
    have hmono : l.countP p ≤ l.countP q :=
      List.countP_mono_left (fun y hy => hpq y (List.mem_cons_of_mem a hy))
    rcases List.mem_cons.mp hx with rfl | hx
    · rw [hpx, hqx]
      simp only [Bool.false_eq_true, if_false, if_true]
      omega
    · have hlt := ih (fun y hy hp => hpq y (List.mem_cons_of_mem a hy) hp) hx
      by_cases hpa : p a = true
      · rw [if_pos hpa, if_pos (hpq a (List.mem_cons_self a l) hpa)]
        omega
      · rw [if_neg hpa]
        split
        · omega
        · omega

theorem countP_not_completed (ts : List Task) :
    ts.countP (fun t => decide ¬(fun t : Task => t.completed) t = true)
      = ts.countP (fun t => !t.completed) := by
  induction ts with
  | nil => rfl
  | cons a l ih =>
    rw [List.countP_cons, List.countP_cons, ih]
    cases h : a.completed <;> simp [h]

/-- C5: the daily snapshot counts pending tasks regardless of creation date,
counts completed tasks created on the current calendar day, and its total
is their sum; the monthly snapshot's total is the full collection size;
and the two totals differ whenever some completed task was created on a
prior calendar day. -/
theorem c5_daily_monthly_stats (ts : List Task) (now : Nat) :
    (dailyStats now ts).pending = ts.countP (fun t => !t.completed) ∧
    (dailyStats now ts).completed
      = ts.countP (fun t => t.completed && isToday t.createdAt now) ∧
    (dailyStats now ts).total
      = (dailyStats now ts).pending + (dailyStats now ts).completed ∧
    (monthlyStats ts).total = ts.length ∧
    ((∃ t ∈ ts, t.completed = true ∧ dayOf t.createdAt < dayOf now) →
      (dailyStats now ts).total ≠ (monthlyStats ts).total) := by
  refine ⟨?_, ?_, rfl, rfl, ?_⟩
  · show (ts.filter (fun t => !t.completed)).length = _
    rw [List.countP_eq_length_filter]
  · show (ts.filter (fun t => t.completed && isToday t.createdAt now)).length = _
    rw [List.countP_eq_length_filter]
  · rintro ⟨t, ht, hc, hd⟩
    have hlt : ts.countP (fun t => t.completed && isToday t.createdAt now)
        < ts.countP (fun t => t.completed) := by
      refine countP_lt_of_strict _ _ ts ?_ t ht hc ?_
      · intro x _ hx
        rw [Bool.and_eq_true] at hx
        exact hx.1
      · rw [hc]
        have : isToday t.createdAt now = false := by
          simp only [isToday, beq_eq_false_iff_ne, ne_eq]
          omega
        rw [this]
        rfl
    have hlen : ts.length = ts.countP (fun t => t.completed)
        + ts.countP (fun t => !t.completed) := by
      rw [List.length_eq_countP_add_countP (fun t : Task => t.completed),
          countP_not_completed]
    show (ts.filter (fun t => !t.completed)).length
        + (ts.filter (fun t => t.completed && isToday t.createdAt now)).length
        ≠ ts.length
    rw [← List.countP_eq_length_filter, ← List.countP_eq_length_filter]
    omega

/-- Witness for C5 at a concrete collection containing a completed task
created on a prior day: the two totals differ. -/
theorem c5_daily_monthly_stats_witness :
    (∃ t ∈ [sampleTask 1 true false 0 0, sampleTask 2 false false (5 * msPerDay) 0],
      t.completed = true ∧ dayOf t.createdAt < dayOf (5 * msPerDay)) ∧
    (dailyStats (5 * msPerDay)
        [sampleTask 1 true false 0 0, sampleTask 2 false false (5 * msPerDay) 0]).total
      ≠ (monthlyStats
        [sampleTask 1 true false 0 0, sampleTask 2 false false (5 * msPerDay) 0]).total :=
  ⟨by decide,
    (c5_daily_monthly_stats
      [sampleTask 1 true false 0 0, sampleTask 2 false false (5 * msPerDay) 0]
      (5 * msPerDay)).2.2.2.2 (by decide)⟩

/-- C6: at session load the retention filter keeps exactly the persisted
records whose creation timestamp is at most 30 days before now (inclusive
boundary): a record strictly older than 30 days is dropped, a record
created exactly 30 days ago at the same time-of-day is retained, and so
are records 29 days old; the in-memory collection is the normalization of
exactly the retained records. -/
theorem c6_retention_boundary (parsed : List RawTask) (now : Nat) :
    (∀ r : RawTask, r ∈ retainedRecords parsed now ↔
      (r ∈ parsed ∧ now ≤ r.createdAt + 30 * msPerDay)) ∧
    (∀ r ∈ parsed, r.createdAt + 30 * msPerDay < now →
      r ∉ retainedRecords parsed now) ∧
    (∀ r ∈ parsed, 30 * msPerDay ≤ now → r.createdAt = now - 30 * msPerDay →
      r ∈ retainedRecords parsed now) ∧
    (∀ r ∈ parsed, 29 * msPerDay ≤ now → r.createdAt = now - 29 * msPerDay →
      r ∈ retainedRecords parsed now) ∧
    (∀ r ∈ parsed, 31 * msPerDay ≤ now → r.createdAt = now - 31 * msPerDay →
      r ∉ retainedRecords parsed now) ∧
    loadTasks parsed now = (retainedRecords parsed now).map cleanTask := by
  have hmem : ∀ r : RawTask, r ∈ retainedRecords parsed now ↔
      (r ∈ parsed ∧ now ≤ r.createdAt + 30 * msPerDay) := by
    intro r
    rw [retainedRecords, List.mem_filter]
    simp [isWithinLast30Days]
  refine ⟨hmem, ?_, ?_, ?_, ?_, rfl⟩
  · intro r _ hold hr
    have := (hmem r).mp hr
    omega
  · intro r hr h30 heq
    refine (hmem r).mpr ⟨hr, ?_⟩
    omega
  · intro r hr h29 heq
    refine (hmem r).mpr ⟨hr, ?_⟩
    omega
  · intro r _ h31 heq hr
    have := (hmem r).mp hr
    have hms : 0 < msPerDay := by norm_num [msPerDay]
    omega

/-- Witness for C6 at concrete boundary timestamps: a record exactly 30 days
old is retained, one exactly 31 days old is dropped. -/
theorem c6_retention_boundary_witness :
    sampleRaw 1 (4 * msPerDay) none none
        ∈ retainedRecords [sampleRaw 1 (4 * msPerDay) none none,
            sampleRaw 2 (3 * msPerDay) none none] (34 * msPerDay) ∧
    sampleRaw 2 (3 * msPerDay) none none
        ∉ retainedRecords [sampleRaw 1 (4 * msPerDay) none none,
            sampleRaw 2 (3 * msPerDay) none none] (34 * msPerDay) :=
  ⟨(c6_retention_boundary [sampleRaw 1 (4 * msPerDay) none none,
        sampleRaw 2 (3 * msPerDay) none none] (34 * msPerDay)).2.2.1
      (sampleRaw 1 (4 * msPerDay) none none) (by decide) (by decide) (by decide),
    (c6_retention_boundary [sampleRaw 1 (4 * msPerDay) none none,
        sampleRaw 2 (3 * msPerDay) none none] (34 * msPerDay)).2.2.2.2.1
      (sampleRaw 2 (3 * msPerDay) none none) (by decide) (by decide) (by decide)⟩

/-- C10: every task that survives the load path comes from a persisted
record that passed the retention filter, with `timeSpent` defaulted to 0
when the persisted field is missing and `isTimerRunning` coerced to a
strict boolean (false when missing); all other fields are carried over. -/
theorem c10_load_normalizes (parsed : List RawTask) (now : Nat) :
    ∀ t ∈ loadTasks parsed now, ∃ r ∈ parsed,
      isWithinLast30Days r.createdAt now = true ∧
      t = cleanTask r ∧
      t.timeSpent = r.timeSpent.getD 0 ∧
      t.isTimerRunning = r.isTimerRunning.getD false ∧
      (r.timeSpent = none → t.timeSpent = 0) ∧
      (r.isTimerRunning = none → t.isTimerRunning = false) := by
  intro t ht
  rw [loadTasks, List.mem_map] at ht
  obtain ⟨r, hr, rfl⟩ := ht
  rw [retainedRecords, List.mem_filter] at hr
  refine ⟨r, hr.1, hr.2, rfl, rfl, rfl, fun hn => ?_, fun hn => ?_⟩
  · show r.timeSpent.getD 0 = 0
    rw [hn]
    rfl
  · show r.isTimerRunning.getD false = false
    rw [hn]
    rfl

/-- Witness for C10 at a concrete persisted record with both optional fields
missing: the loaded task has `timeSpent = 0` and `isTimerRunning = false`. -/
theorem c10_load_normalizes_witness :
    cleanTask (sampleRaw 1 0 none none) ∈ loadTasks [sampleRaw 1 0 none none] 0 ∧
    ∃ r ∈ [sampleRaw 1 0 none none],
      isWithinLast30Days r.createdAt 0 = true ∧
      cleanTask (sampleRaw 1 0 none none) = cleanTask r ∧
      (cleanTask (sampleRaw 1 0 none none)).timeSpent = r.timeSpent.getD 0 ∧
      (cleanTask (sampleRaw 1 0 none none)).isTimerRunning = r.isTimerRunning.getD false ∧
      (r.timeSpent = none → (cleanTask (sampleRaw 1 0 none none)).timeSpent = 0) ∧
      (r.isTimerRunning = none →
        (cleanTask (sampleRaw 1 0 none none)).isTimerRunning = false) :=
  ⟨by decide,
    c10_load_normalizes [sampleRaw 1 0 none none] 0
      (cleanTask (sampleRaw 1 0 none none)) (by decide)⟩

instance wfOpsDecidable (ops : List Op) (ts : List Task) :
    Decidable (wfOps ops ts) :=
  inferInstanceAs (Decidable (taskIds ts ++ seqCreateIds ops).Nodup)

theorem toggleTaskOne_id (id : Nat) (t : Task) : (toggleTaskOne id t).id = t.id := by
  unfold toggleTaskOne
  split <;> rfl

theorem toggleTimerOne_id (id : Nat) (t : Task) :
    (toggleTimerOne id t).id = t.id := by
  unfold toggleTimerOne
  split <;> rfl

theorem editTaskOne_id (id : Nat) (newText : String) (t : Task) :
    (editTaskOne id newText t).id = t.id := by
  unfold editTaskOne
  split <;> rfl

theorem tickOne_id (t : Task) : (tickOne t).id = t.id := by
  unfold tickOne
  split <;> rfl

theorem toggleTaskOne_timeSpent (id : Nat) (t : Task) :
    (toggleTaskOne id t).timeSpent = t.timeSpent := by
  unfold toggleTaskOne
  split <;> rfl

theorem toggleTimerOne_timeSpent (id : Nat) (t : Task) :
    (toggleTimerOne id t).timeSpent = t.timeSpent := by
  unfold toggleTimerOne
  split <;> rfl

theorem editTaskOne_timeSpent (id : Nat) (newText : String) (t : Task) :
    (editTaskOne id newText t).timeSpent = t.timeSpent := by
  unfold editTaskOne
  split <;> rfl

theorem tickOne_timeSpent_ge (t : Task) : t.timeSpent ≤ (tickOne t).timeSpent := by
  unfold tickOne
  split
  · exact Nat.le_succ _
  · exact le_refl _

theorem seqCreateIds_cons (o : Op) (ops : List Op) :
    seqCreateIds (o :: ops) = opCreateIds o ++ seqCreateIds ops := by
  unfold seqCreateIds
  rw [List.map_cons, List.flatten_cons]

theorem findTask_map (f : Task → Task) (hf : ∀ t, (f t).id = t.id) (id : Nat)
    (ts : List Task) : findTask id (ts.map f) = (findTask id ts).map f := by
  unfold findTask
  have hp : ((fun t : Task => t.id == id) ∘ f) = (fun t : Task => t.id == id) :=
    funext fun t => by simp [Function.comp, hf t]
  rw [List.find?_map, hp]

theorem taskIds_map (f : Task → Task) (hf : ∀ t, (f t).id = t.id)
    (ts : List Task) : taskIds (ts.map f) = taskIds ts := by
  unfold taskIds
  rw [List.map_map]
  exact List.map_congr_left (fun t _ => hf t)

theorem taskIds_filter_sublist (q : Task → Bool) (ts : List Task) :
    (taskIds (ts.filter q)).Sublist (taskIds ts) :=
  List.Sublist.map _ (List.filter_sublist ts)

theorem taskIds_create (input : String) (freshId now : Nat) (ts : List Task) :
    taskIds (addTask input freshId now ts).1 = taskIds ts ∨
    taskIds (addTask input freshId now ts).1 = freshId :: taskIds ts := by
  simp only [addTask]
  by_cases hb : jsTrim input = ""
  · rw [if_pos hb]
    exact Or.inl rfl
  · rw [if_neg hb]
    exact Or.inr rfl

theorem taskIds_applyOp_subset (o : Op) (ts : List Task) :
    ∀ i ∈ taskIds (applyOp o ts), i ∈ taskIds ts ∨ i ∈ opCreateIds o := by
  intro i hi
  cases o with
  | create input freshId now =>
    rcases taskIds_create input freshId now ts with he | he
    · rw [show applyOp (Op.create input freshId now) ts
          = (addTask input freshId now ts).1 from rfl, he] at hi
      exact Or.inl hi
    · rw [show applyOp (Op.create input freshId now) ts
          = (addTask input freshId now ts).1 from rfl, he] at hi
      rcases List.mem_cons.mp hi with rfl | hi
      · exact Or.inr (by simp [opCreateIds])
      · exact Or.inl hi
  | toggleComplete id =>
    rw [show applyOp (Op.toggleComplete id) ts = ts.map (toggleTaskOne id) from rfl,
        taskIds_map _ (toggleTaskOne_id id)] at hi
    exact Or.inl hi
  | toggleTimer id =>
    rw [show applyOp (Op.toggleTimer id) ts = ts.map (toggleTimerOne id) from rfl,
        taskIds_map _ (toggleTimerOne_id id)] at hi
    exact Or.inl hi
  | edit id newText =>
    have : applyOp (Op.edit id newText) ts = editTask id newText ts := rfl
    rw [this] at hi
    unfold editTask at hi
    split at hi
    · exact Or.inl hi
    · rw [taskIds_map _ (editTaskOne_id id newText)] at hi
      exact Or.inl hi
  | delete id =>
    exact Or.inl ((taskIds_filter_sublist _ ts).subset hi)
  | clearCompleted =>
    exact Or.inl ((taskIds_filter_sublist _ ts).subset hi)
  | tick =>
    rw [show applyOp Op.tick ts = ts.map tickOne from rfl,
        taskIds_map _ tickOne_id] at hi
    exact Or.inl hi

theorem nodup_taskIds_applyOp (o : Op) (ts : List Task)
    (h : (taskIds ts).Nodup)
    (hfresh : ∀ i ∈ opCreateIds o, i ∉ taskIds ts) :
    (taskIds (applyOp o ts)).Nodup := by
  cases o with
  | create input freshId now =>
    rcases taskIds_create input freshId now ts with he | he
    · rw [show applyOp (Op.create input freshId now) ts
          = (addTask input freshId now ts).1 from rfl, he]
      exact h
    · rw [show applyOp (Op.create input freshId now) ts
          = (addTask input freshId now ts).1 from rfl, he]
      exact List.nodup_cons.mpr ⟨hfresh freshId (by simp [opCreateIds]), h⟩
  | toggleComplete id =>
    rw [show applyOp (Op.toggleComplete id) ts = ts.map (toggleTaskOne id) from rfl,
        taskIds_map _ (toggleTaskOne_id id)]
    exact h
  | toggleTimer id =>
    rw [show applyOp (Op.toggleTimer id) ts = ts.map (toggleTimerOne id) from rfl,
        taskIds_map _ (toggleTimerOne_id id)]
    exact h
  | edit id newText =>
    show (taskIds (editTask id newText ts)).Nodup
    unfold editTask
    split
    · exact h
    · rw [taskIds_map _ (editTaskOne_id id newText)]
      exact h
  | delete id =>
    exact (taskIds_filter_sublist _ ts).nodup h
  | clearCompleted =>
    exact (taskIds_filter_sublist _ ts).nodup h
  | tick =>
    rw [show applyOp Op.tick ts = ts.map tickOne from rfl,
        taskIds_map _ tickOne_id]
    exact h

theorem wfOps_nodup_ids (ops : List Op) (ts : List Task) (h : wfOps ops ts) :
    (taskIds ts).Nodup :=
  (List.nodup_append.mp h).1

theorem wfOps_cons_fresh (o : Op) (ops : List Op) (ts : List Task)
    (h : wfOps (o :: ops) ts) : ∀ i ∈ opCreateIds o, i ∉ taskIds ts := by
  intro i hoc hits
  have hdisj := (List.nodup_append.mp h).2.2
  refine hdisj hits ?_
  rw [seqCreateIds_cons]
  exact List.mem_append.mpr (Or.inl hoc)

theorem wfOps_cons_not_in_tail (o : Op) (ops : List Op) (ts : List Task)
    (h : wfOps (o :: ops) ts) (i : Nat) (hi : i ∈ taskIds ts) :
    i ∉ seqCreateIds ops := by
  intro hmem
  have hdisj := (List.nodup_append.mp h).2.2
  refine hdisj hi ?_
  rw [seqCreateIds_cons]
  exact List.mem_append.mpr (Or.inr hmem)

theorem wfOps_tail (o : Op) (ops : List Op) (ts : List Task)
    (h : wfOps (o :: ops) ts) : wfOps ops (applyOp o ts) := by
  unfold wfOps at h ⊢
  rw [seqCreateIds_cons] at h
  rcases List.nodup_append.mp h with ⟨hA, hBC, hABC⟩
  rcases List.nodup_append.mp hBC with ⟨hB, hC, hBCdisj⟩
  refine List.nodup_append.mpr ⟨?_, hC, ?_⟩
  · refine nodup_taskIds_applyOp o ts hA ?_
    intro i hoc hits
    exact hABC hits (List.mem_append.mpr (Or.inl hoc))
  · intro i hi hiC
    rcases taskIds_applyOp_subset o ts i hi with hin | hin
    · exact hABC hin (List.mem_append.mpr (Or.inr hiC))
    · exact hBCdisj hin hiC

theorem findTask_eq_none_iff (id : Nat) (ts : List Task) :
    findTask id ts = none ↔ id ∉ taskIds ts := by
  unfold findTask taskIds
  rw [List.find?_eq_none]
  constructor
  · intro h hmem
    obtain ⟨t, ht, rfl⟩ := List.mem_map.mp hmem
    exact h t ht (by simp)
  · intro h t ht hp
    exact h (List.mem_map.mpr ⟨t, ht, by simpa using hp⟩)

theorem findTask_some_id (id : Nat) (ts : List Task) (t : Task)
    (h : findTask id ts = some t) : t.id = id := by
  have := List.find?_some h
  simpa using this

theorem findTask_some_mem_ids (id : Nat) (ts : List Task) (t : Task)
    (h : findTask id ts = some t) : id ∈ taskIds ts :=
  List.mem_map.mpr ⟨t, List.mem_of_find?_eq_some h, findTask_some_id id ts t h⟩

theorem findTask_filter (q : Task → Bool) (ts : List Task) (id : Nat) (t : Task)
    (hnodup : (taskIds ts).Nodup) (hfind : findTask id ts = some t) :
    findTask id (ts.filter q) = if q t = true then some t else none := by
  have htmem : t ∈ ts := List.mem_of_find?_eq_some hfind
  have htid : t.id = id := findTask_some_id id ts t hfind
  have huniq : ∀ x ∈ ts, x.id = id → x = t := by
    intro x hx hxid
    exact List.inj_on_of_nodup_map hnodup hx htmem (by rw [hxid, htid])
  by_cases hq : q t = true
  · rw [if_pos hq]
    have hsome : (List.find? (fun x : Task => x.id == id) (ts.filter q)).isSome := by
      rw [List.find?_isSome]
      exact ⟨t, List.mem_filter.mpr ⟨htmem, hq⟩, by simp [htid]⟩
    obtain ⟨x, hx⟩ := Option.isSome_iff_exists.mp hsome
    have hxmem := List.mem_of_find?_eq_some hx
    have hxid : x.id = id := by simpa using List.find?_some hx
    show List.find? (fun x : Task => x.id == id) (ts.filter q) = some t
    rw [hx, huniq x (List.mem_filter.mp hxmem).1 hxid]
  · rw [if_neg hq]
    show List.find? (fun x : Task => x.id == id) (ts.filter q) = none
    rw [List.find?_eq_none]
    intro x hxmem hpx
    have hxid : x.id = id := by simpa using hpx
    have hxt := huniq x (List.mem_filter.mp hxmem).1 hxid
    subst hxt
    exact hq (List.mem_filter.mp hxmem).2

theorem findTask_applyOp_step (o : Op) (ts : List Task) (id : Nat) (t : Task)
    (hnodup : (taskIds ts).Nodup)
    (hfresh : ∀ i ∈ opCreateIds o, i ∉ taskIds ts)
    (hfind : findTask id ts = some t) :
    findTask id (applyOp o ts) = none ∨
      ∃ t2 : Task, findTask id (applyOp o ts) = some t2 ∧
        t.timeSpent ≤ t2.timeSpent := by
  cases o with
  | create input freshId now =>
    have happ : applyOp (Op.create input freshId now) ts
        = (addTask input freshId now ts).1 := rfl
    rw [happ]
    by_cases hb : jsTrim input = ""
    · right
      refine ⟨t, ?_, le_refl _⟩
      have he : (addTask input freshId now ts).1 = ts := by
        simp only [addTask]
        rw [if_pos hb]
      rw [he]
      exact hfind
    · right
      refine ⟨t, ?_, le_refl _⟩
      have he : (addTask input freshId now ts).1 =
          { id := freshId
            text := capitalize (jsTrim input)
            completed := false
            createdAt := now
            priority := determinePriority (jsTrim input)
            tags := determineTags (jsTrim input)
            timeSpent := 0
            isTimerRunning := false } :: ts := by
        simp only [addTask]
        rw [if_neg hb]
      rw [he]
      show List.find? (fun x : Task => x.id == id) (_ :: ts) = some t
      rw [List.find?_cons_of_neg]
      · exact hfind
      · have hidmem : id ∈ taskIds ts := findTask_some_mem_ids id ts t hfind
        have hfr : freshId ∉ taskIds ts := hfresh freshId (by simp [opCreateIds])
        show ¬((freshId == id) = true)
        simp only [beq_iff_eq]
        intro hcontra
        exact hfr (hcontra ▸ hidmem)
  | toggleComplete id2 =>
    right
    refine ⟨toggleTaskOne id2 t, ?_, ?_⟩
    · show findTask id (ts.map (toggleTaskOne id2)) = _
      rw [findTask_map _ (toggleTaskOne_id id2), hfind]
      rfl
    · rw [toggleTaskOne_timeSpent]
  | toggleTimer id2 =>
    right
    refine ⟨toggleTimerOne id2 t, ?_, ?_⟩
    · show findTask id (ts.map (toggleTimerOne id2)) = _
      rw [findTask_map _ (toggleTimerOne_id id2), hfind]
      rfl
    · rw [toggleTimerOne_timeSpent]
  | edit id2 newText =>
    have happ : applyOp (Op.edit id2 newText) ts = editTask id2 newText ts := rfl
    rw [happ]
    unfold editTask
    split
    · exact Or.inr ⟨t, hfind, le_refl _⟩
    · right
      refine ⟨editTaskOne id2 newText t, ?_, ?_⟩
      · rw [findTask_map _ (editTaskOne_id id2 newText), hfind]
        rfl
      · rw [editTaskOne_timeSpent]
  | delete id2 =>
    have hf := findTask_filter (fun x => !(x.id == id2)) ts id t hnodup hfind
    by_cases hq : (!(t.id == id2)) = true
    · right
      refine ⟨t, ?_, le_refl _⟩
      show findTask id (ts.filter (fun x => !(x.id == id2))) = some t
      rw [hf, if_pos hq]
    · left
      show findTask id (ts.filter (fun x => !(x.id == id2))) = none
      rw [hf, if_neg hq]
  | clearCompleted =>
    have hf := findTask_filter (fun x => !x.completed) ts id t hnodup hfind
    by_cases hq : (!t.completed) = true
    · right
      refine ⟨t, ?_, le_refl _⟩
      show findTask id (ts.filter (fun x => !x.completed)) = some t
      rw [hf, if_pos hq]
    · left
      show findTask id (ts.filter (fun x => !x.completed)) = none
      rw [hf, if_neg hq]
  | tick =>
    right
    refine ⟨tickOne t, ?_, tickOne_timeSpent_ge t⟩
    show findTask id (ts.map tickOne) = _
    rw [findTask_map _ tickOne_id, hfind]
    rfl

theorem taskIds_applySeq_subset (ops : List Op) : ∀ (ts : List Task) (i : Nat),
    i ∈ taskIds (applySeq ops ts) → i ∈ taskIds ts ∨ i ∈ seqCreateIds ops := by
  induction ops with
  | nil => exact fun ts i h => Or.inl h
  | cons o ops ih =>
    intro ts i h
    rcases ih (applyOp o ts) i h with h1 | h1
    · rcases taskIds_applyOp_subset o ts i h1 with h2 | h2
      · exact Or.inl h2
      · right
        rw [seqCreateIds_cons]
        exact List.mem_append.mpr (Or.inl h2)
    · right
      rw [seqCreateIds_cons]
      exact List.mem_append.mpr (Or.inr h1)

theorem findTask_applySeq_mono (ops : List Op) : ∀ (ts : List Task) (id : Nat)
    (t t2 : Task), wfOps ops ts → findTask id ts = some t →
    findTask id (applySeq ops ts) = some t2 → t.timeSpent ≤ t2.timeSpent := by
  induction ops with
  | nil =>
    intro ts id t t2 _ h1 h2
    rw [show applySeq [] ts = ts from rfl] at h2
    rw [h1] at h2
    cases h2
    exact le_refl _
  | cons o ops ih =>
    intro ts id t t2 hwf h1 h2
    rw [show applySeq (o :: ops) ts = applySeq ops (applyOp o ts) from rfl] at h2
    rcases findTask_applyOp_step o ts id t (wfOps_nodup_ids _ ts hwf)
        (wfOps_cons_fresh o ops ts hwf) h1 with hnone | ⟨tmid, hmid, hle⟩
    · exfalso
      have hid1 : id ∉ taskIds (applyOp o ts) :=
        (findTask_eq_none_iff id (applyOp o ts)).mp hnone
      have hidin : id ∈ taskIds ts := findTask_some_mem_ids id ts t h1
      have hid2 : id ∉ seqCreateIds ops :=
        wfOps_cons_not_in_tail o ops ts hwf id hidin
      have hfinal : id ∉ taskIds (applySeq ops (applyOp o ts)) := by
        intro hmem
        rcases taskIds_applySeq_subset ops (applyOp o ts) id hmem with h | h
        · exact hid1 h
        · exact hid2 h
      rw [(findTask_eq_none_iff id _).mpr hfinal] at h2
      cases h2
    · exact le_trans hle
        (ih (applyOp o ts) id tmid t2 (wfOps_tail o ops ts hwf) hmid h2)

/-- C7: for every task, `timeSpent` is monotonically non-decreasing across
any well-formed sequence of lifecycle operations and timer ticks (fresh
ids never collide); a tick increases it by exactly 1 on a running task and
leaves it unchanged on a non-running task, and no operation ever decreases
it. -/
theorem c7_timeSpent_monotone :
    (∀ (ops : List Op) (ts : List Task) (id : Nat) (t t2 : Task),
      wfOps ops ts → findTask id ts = some t →
      findTask id (applySeq ops ts) = some t2 → t.timeSpent ≤ t2.timeSpent) ∧
    (∀ t : Task, t.isTimerRunning = true → (tickOne t).timeSpent = t.timeSpent + 1) ∧
    (∀ t : Task, t.isTimerRunning = false → (tickOne t).timeSpent = t.timeSpent) := by
  refine ⟨fun ops => findTask_applySeq_mono ops, fun t ht => ?_, fun t ht => ?_⟩
  · unfold tickOne
    rw [if_pos ht]
  · unfold tickOne
    rw [if_neg (by rw [ht]; exact Bool.false_ne_true)]

/-- Witness for C7 at a concrete run: a running task gains one second on a
tick, then its timer is toggled off; `timeSpent` goes from 5 to 6. -/
theorem c7_timeSpent_monotone_witness :
    wfOps [Op.tick, Op.toggleTimer 1] [sampleTask 1 false true 0 5] ∧
    findTask 1 [sampleTask 1 false true 0 5] = some (sampleTask 1 false true 0 5) ∧
    findTask 1 (applySeq [Op.tick, Op.toggleTimer 1] [sampleTask 1 false true 0 5])
      = some { sampleTask 1 false true 0 5 with timeSpent := 6, isTimerRunning := false } ∧
    (sampleTask 1 false true 0 5).timeSpent
      ≤ ({ sampleTask 1 false true 0 5 with
            timeSpent := 6, isTimerRunning := false } : Task).timeSpent :=
  ⟨by decide, by decide, by decide,
    c7_timeSpent_monotone.1 [Op.tick, Op.toggleTimer 1] [sampleTask 1 false true 0 5]
      1 (sampleTask 1 false true 0 5)
      { sampleTask 1 false true 0 5 with timeSpent := 6, isTimerRunning := false }
      (by decide) (by decide) (by decide)⟩

end SmartTask
